import Mathlib

/-!
A shallow embedding of the Acuity webhook handler
(`accuity-handler.py`, class `AcuityView`): the `post` request handler and
its two helper steps `_save_talent_pi_datastore` and `_save_zendek_comment`.

External collaborators (calendaring API, datastore, ticket system, portal,
analytics, error monitoring) are represented by an effect trace and by
oracle fields in a `World` record; the datastore of candidate records is
passed explicitly so that its mutation can be reasoned about.
-/

namespace Acuity

/-- Modelled from the spec: the three processed action strings from
`models.constants` (module not under `src/`); the spec names them
`scheduled`, `rescheduled`, `canceled`. -/
def SCHEDULED : String := "scheduled"

/-- Modelled from the spec: see `SCHEDULED`. -/
def RESCHEDULED : String := "rescheduled"

/-- Modelled from the spec: see `SCHEDULED`. -/
def CANCELED : String := "canceled"

/-- Modelled from the spec: `JOB_CLOSED` from `models.constants`
(module not under `src/`); the spec says the job status is "closed". -/
def JOB_CLOSED : String := "closed"

/-- Modelled from the spec: the `tags.CALL_SCHEDULED` ticket-tag constant
from `services.zendesk` (module not under `src/`). Only its distinctness
from `CALL_CANCELED` matters to the handler logic. -/
def CALL_SCHEDULED : String := "call_scheduled"

/-- Modelled from the spec: the `tags.CALL_CANCELED` ticket-tag constant
from `services.zendesk` (module not under `src/`). -/
def CALL_CANCELED : String := "call_canceled"

/-- Modelled from the spec: the `fields.CANDIDATE_NOT_INTERESTED` custom
field id from `services.zendesk` (module not under `src/`); an arbitrary
numeric field id. -/
def CANDIDATE_NOT_INTERESTED : Nat := 27

/-- One `name`/`value` entry of the "CandidateID" form in the Acuity
API response. -/
structure FormField where
  name : String
  value : String
  deriving DecidableEq, Repr

/-- One entry of the `forms` list of the Acuity API response. -/
structure FormEntry where
  name : String
  values : List FormField
  deriving DecidableEq, Repr

/-- The fields of the Acuity appointment JSON the handler reads.  String
fields use `""` for a missing or falsy (Python `None`/empty) value. -/
structure AcuityDetail where
  forms : List FormEntry
  email : String
  phone : String
  datetimeStr : String
  formsText : String
  firstName : String
  lastName : String
  timezone : String
  calendar : String
  duration : String
  deriving DecidableEq, Repr

/-- A candidate record (`TalentPIModel`).  The datastore key is kept
outside the record; `""` stands for a falsy (absent) string field. -/
structure Talent where
  email : String
  mobile : List String
  preferredLanguage : String
  givenName : String
  familyName : String
  deriving DecidableEq, Repr

/-- A job record (`JobModel`); `id` is its datastore key id. -/
structure Job where
  id : String
  status : String
  langCode : String
  openingTitle : String
  ownerId : String
  companyId : String
  approach : String
  personalityCheck : Bool
  personalityCheckTrigger : String
  preferredLanguage : String
  deriving DecidableEq, Repr

/-- The job's contact record for the candidate (`job.get_contact`). -/
structure Contact where
  ticketId : Nat
  status : String
  deriving DecidableEq, Repr

/-- A support ticket: status, tag list, custom fields (id/value pairs,
`""` for a falsy value) and the pending comment. -/
structure Ticket where
  status : String
  tagList : List String
  customFields : List (Nat × String)
  commentBody : String
  commentPublic : Bool
  deriving DecidableEq, Repr

/-- Request-time configuration: the production/QA/dev namespace names and
the current namespace (the `ENV_CURRENT_NAMESPACE` environment variable). -/
structure Config where
  prodNs : String
  qaNs : String
  devNs : String
  currentNs : String
  deriving DecidableEq, Repr

/-- The candidate datastore, keyed by talent id. -/
def Datastore : Type := String → Option Talent

/-- Write a talent record under a key (`talent_pi.put()`). -/
def putTalent (ds : Datastore) (tid : String) (t : Talent) : Datastore :=
  fun i => if i = tid then some t else ds i

/-- The observable external calls the handler makes, in order. -/
inductive Effect where
  | acuityFetch (appointmentId : String)
  | talentPut (t : Talent)
  | portalAdd (info : List (String × String))
  | analyticsPut (talentId : String) (jobId : String) (ns : String)
  | personalityEnable (jobId : String) (talentId : String)
  | applicationDelete (talentId : String) (jobId : String)
  | contactPut
  | sentryMsg (msg : String)
  | sentryExc
  | logWarn (msg : String)
  | logExc
  | ticketResolve (language : String) (reason : Option String)
  | ticketUpdate (t : Ticket)
  | track (job : Option Job) (talentId : Option String) (action : String) (date : String)
  deriving DecidableEq, Repr

/-- How a run of `post` ended. -/
inductive ExitPath where
  | notProcessed
  | jobNotFoundNonProd
  | jobInQaDev
  | raised
  | completed
  deriving DecidableEq, Repr

/-- Oracles for the external collaborators of one request. -/
structure World where
  fetchFails : Bool
  jobHere : Option Job
  jobInQa : Bool
  jobInDev : Bool
  contact : Option Contact
  ticket : Ticket
  contactFails : Bool
  personalityFails : Bool
  applicationDeleteFails : Bool
  formatDate : String → String

/-- Strip the `appointment.` event prefix from the raw action string
(`action.startswith('appointment.')` / slicing off `len('appointment.')`
characters), phrased on the character lists so that it evaluates. -/
def stripAction (a : String) : String :=
  if "appointment.".data.isPrefixOf a.data then
    String.mk (a.data.drop "appointment.".data.length)
  else a

/-- The actions the handler processes. -/
def processedActions : List String := [SCHEDULED, RESCHEDULED, CANCELED]

/-- `[f['values'] for f in forms if f['name'] == 'CandidateID'][0]`:
`none` models the `IndexError` when no "CandidateID" form exists. -/
def candidateForm (forms : List FormEntry) : Option (List FormField) :=
  ((forms.filter (fun f => f.name = "CandidateID")).map (fun f => f.values)).head?

/-- `[x] = [f['value'] for f in values if f['name'] == n]`: `some` exactly
when the unpacking succeeds, i.e. exactly one matching field exists. -/
def extractSingle (n : String) (vals : List FormField) : Option String :=
  match (vals.filter (fun f => f.name = n)).map (fun f => f.value) with
  | [v] => some v
  | _ => none

/-- The in-place enrichment of a talent record in
`_save_talent_pi_datastore`: set the email only when absent, append the
phone only when new; the Bool is the `is_dirty` flag. -/
def enrichTalent (tp : Talent) (email phone : String) : Talent × Bool :=
  let p1 : Talent × Bool :=
    if tp.email = "" ∧ email ≠ "" then ({ tp with email := email }, true) else (tp, false)
  if phone ≠ "" ∧ phone ∉ p1.1.mobile then
    ({ p1.1 with mobile := p1.1.mobile ++ [phone] }, true)
  else p1

/-- `_save_talent_pi_datastore(talent_id, json_data)`: returns the updated
datastore and the effect trace. -/
def saveTalentPi (talentId : Option String) (d : AcuityDetail) (ds : Datastore) :
    Datastore × List Effect :=
  match talentId with
  | none => (ds, [Effect.logWarn "Talent id is None."])
  | some tid =>
    if d.email = "" ∧ d.phone = "" then (ds, [])
    else
      match ds tid with
      | none => (ds, [Effect.logWarn "Talent not found."])
      | some tp =>
        let r := enrichTalent tp d.email d.phone
        if r.2 then (putTalent ds tid r.1, [Effect.talentPut r.1]) else (ds, [])

/-- The ticket status assignment of `_save_zendek_comment`: set to
"pending" when the status is "open", or when it is "solved" and the
action is scheduled and the contact's pipeline status is "not_interested"
(Python precedence: `a or b and c and d`). -/
def applyStatus (status action contactStatus : String) : String :=
  if status = "open" ∨ status = "solved" ∧ action = SCHEDULED ∧ contactStatus = "not_interested"
  then "pending" else status

/-- The tag-list mutation of `_save_zendek_comment`: Python `list.remove`
drops the first occurrence, `list.append` adds at the end. -/
def applyTags (action : String) (ts : List String) : List String :=
  if action = CANCELED then
    let t1 := if CALL_SCHEDULED ∈ ts then ts.erase CALL_SCHEDULED else ts
    if CALL_CANCELED ∈ t1 then t1 else t1 ++ [CALL_CANCELED]
  else
    let t1 := if CALL_SCHEDULED ∈ ts then ts else ts ++ [CALL_SCHEDULED]
    if CALL_CANCELED ∈ t1 then t1.erase CALL_CANCELED else t1

/-- Modelled from the spec: `indexed_values(ticket.custom_fields, 'id',
'value')` followed by `custom_fields[k]` (`util.dictutils` is not under
`src/`); a lookup of the custom field value by field id, `none` modelling
the `KeyError` when the id is absent. -/
def lookupField (cf : List (Nat × String)) (k : Nat) : Option String :=
  (cf.find? (fun p => p.1 = k)).map (fun p => p.2)

/-- The comment template selection and interpolation of
`_save_zendek_comment`; `none` models the `NameError` when the action is
none of the three templates (the `elif` chain has no final `else`). -/
def buildComment (action : String) (j : Job) (d : AcuityDetail) (apptDate : String) :
    Option String :=
  let base :=
    if action = SCHEDULED then
      some (d.firstName ++ " " ++ d.lastName ++ " scheduled an appointment for `" ++
        apptDate ++ "` (" ++ d.timezone ++ ") with `" ++ d.calendar ++ "`.")
    else if action = RESCHEDULED then
      some (d.firstName ++ " " ++ d.lastName ++ " rescheduled the previous appointment with `" ++
        d.calendar ++ "`. The new date is `" ++ apptDate ++ "` (" ++ d.timezone ++ ").")
    else if action = CANCELED then
      let c := d.firstName ++ " " ++ d.lastName ++ " canceled the appointment at `" ++
        apptDate ++ "` (" ++ d.timezone ++ ") with `" ++ d.calendar ++ "`."
      some (if j.status = JOB_CLOSED then "Job closed\n" ++ c else c)
    else none
  match base with
  | none => none
  | some b =>
    let b := b ++ "\n" ++ "Duration of the meeting: " ++ d.duration ++ " minutes. \n"
    let b := if d.email ≠ "" then b ++ "Email: " ++ d.email ++ "\n" else b
    some (if d.phone ≠ "" then b ++ "Phone: " ++ d.phone ++ "\n" else b)

/-- `_save_zendek_comment(action, job, talent_id, json_data)`: guard
checks, comment building, status and tag transition, and for a canceled
action the resolve-with-reason call; the whole method is wrapped in
`catch_exception`, so an exception (missing custom field, unknown
action) yields no external ticket write. -/
def zendekStep (action : String) (jobOpt : Option Job) (talentId : Option String)
    (d : AcuityDetail) (contactOpt : Option Contact) (ticket : Ticket)
    (formatDate : String → String) : List Effect :=
  match talentId with
  | none => [Effect.logWarn "Talent id is None."]
  | some _ =>
    match jobOpt with
    | none => [Effect.logWarn "Job not found"]
    | some j =>
      match contactOpt with
      | none => [Effect.logWarn "Contact talent not found."]
      | some ct =>
        let apptDate := formatDate d.datetimeStr
        match buildComment action j d apptDate with
        | none => []
        | some comment =>
          let t1 : Ticket :=
            { ticket with
              commentBody := comment
              commentPublic := false
              status := applyStatus ticket.status action ct.status }
          let t2 : Ticket := { t1 with tagList := applyTags action t1.tagList }
          if action = CANCELED then
            match lookupField t2.customFields CANDIDATE_NOT_INTERESTED with
            | none => []
            | some v =>
              let reason := if j.status = JOB_CLOSED then "job_closed" else v
              (if reason ≠ "" then [Effect.ticketResolve j.preferredLanguage (some reason)]
               else [Effect.ticketResolve j.preferredLanguage none]) ++
              [Effect.ticketUpdate t2]
          else
            [Effect.ticketUpdate t2]

/-- The `action == SCHEDULED` block of `post`: candidate upsert, language
fallback, portal registration, analytics event, personality-check
enablement and stale-application deletion.  The Bool is true when the
block raises to the global wrapper (missing talent or job dereference). -/
def scheduledStep (cfg : Config) (jobOpt : Option Job) (talentId : Option String)
    (d : AcuityDetail) (w : World) (ds : Datastore) : Datastore × List Effect × Bool :=
  let r := saveTalentPi talentId d ds
  let ds1 := r.1
  let fx1 := r.2
  match talentId with
  | none => (ds1, fx1, true)
  | some tid =>
    match ds1 tid with
    | none => (ds1, fx1, true)
    | some tp =>
      match jobOpt with
      | none => (ds1, fx1, true)
      | some j =>
        let lang := if tp.preferredLanguage ≠ "" then tp.preferredLanguage else j.langCode
        let portal : List (String × String) :=
          [("job_id", j.id), ("job_title", j.openingTitle), ("owner_id", j.ownerId),
           ("company_id", j.companyId), ("email", tp.email), ("local_id", tid),
           ("first_name", tp.givenName), ("last_name", tp.familyName),
           ("preferred_language", lang), ("job_approach", j.approach),
           ("step", "call_scheduled")]
        let fx2 := [Effect.portalAdd portal, Effect.analyticsPut tid j.id cfg.currentNs]
        let fx3 :=
          if j.personalityCheck ∧
              (j.personalityCheckTrigger = "" ∨ j.personalityCheckTrigger = "call_scheduled")
          then Effect.personalityEnable j.id tid ::
            (if w.personalityFails then [Effect.logExc] else [])
          else []
        let fx4 := Effect.applicationDelete tid j.id ::
          (if w.applicationDeleteFails then [Effect.logExc] else [])
        (ds1, fx1 ++ fx2 ++ fx3 ++ fx4, false)

/-- Prepend already-emitted effects to a handler result. -/
def withFx (fx : List Effect) : ExitPath × List Effect × Datastore →
    ExitPath × List Effect × Datastore
  | (e, fx2, ds) => (e, fx ++ fx2, ds)

/-- The Sentry message built for an unknown job id
(`'\n'.join(lines)` over the four lines). -/
def sentryJobMsg (action formsText : String) : String :=
  "Unknown job_id in Acuity API response" ++ "\n" ++ "Action: " ++ action ++ "\n" ++
    "Forms text:\n" ++ "\n" ++ formsText

/-- The tail of `post` from the `action == SCHEDULED` check on, with the
resolved (possibly `None`) job: reconciliation, contact update (its
`try/except` reports to Sentry and continues), ticket annotation, and
the final tracking call. -/
def postWithJob (cfg : Config) (_apptId action : String) (jobOpt : Option Job)
    (talentId : Option String) (d : AcuityDetail) (w : World) (ds : Datastore) :
    ExitPath × List Effect × Datastore :=
  let step :=
    if action = SCHEDULED then scheduledStep cfg jobOpt talentId d w ds
    else (ds, [], false)
  let ds1 := step.1
  let fx1 := step.2.1
  cond step.2.2 (.raised, fx1, ds1)
    (let fxContact :=
      if jobOpt.isNone || w.contact.isNone || w.contactFails then [Effect.sentryExc]
      else [Effect.contactPut]
     let fxZen := zendekStep action jobOpt talentId d w.contact w.ticket w.formatDate
     let apptDate := w.formatDate d.datetimeStr
     (.completed,
      fx1 ++ fxContact ++ fxZen ++ [Effect.track jobOpt talentId action apptDate],
      ds1))

/-- The job-resolution block of `post` (`if not job:`): non-production
namespaces no-op, QA/dev leakage no-ops on production, and otherwise a
Sentry message followed by continuing with `job = None`. -/
def postAfterExtract (cfg : Config) (apptId action : String) (talentId : Option String)
    (d : AcuityDetail) (w : World) (ds : Datastore) : ExitPath × List Effect × Datastore :=
  match w.jobHere with
  | some j => postWithJob cfg apptId action (some j) talentId d w ds
  | none =>
    if cfg.currentNs ≠ cfg.prodNs then (.jobNotFoundNonProd, [], ds)
    else if w.jobInQa || w.jobInDev then (.jobInQaDev, [], ds)
    else
      withFx [Effect.sentryMsg (sentryJobMsg action d.formsText)]
        (postWithJob cfg apptId action none talentId d w ds)

/-- `AcuityView.post`: action filter, appointment fetch, form extraction,
job resolution, then the per-action pipeline.  The result is the exit
path, the external-effect trace in order, and the final datastore. -/
def post (cfg : Config) (apptId rawAction : String) (d : AcuityDetail) (w : World)
    (ds : Datastore) : ExitPath × List Effect × Datastore :=
  let action := stripAction rawAction
  if action ∈ processedActions then
    if w.fetchFails then (.raised, [Effect.acuityFetch apptId], ds)
    else
      match candidateForm d.forms with
      | none => (.raised, [Effect.acuityFetch apptId], ds)
      | some vals =>
        match extractSingle "JobId" vals with
        | none => (.raised, [Effect.acuityFetch apptId], ds)
        | some _ =>
          withFx [Effect.acuityFetch apptId]
            (postAfterExtract cfg apptId action (extractSingle "CandidateId" vals) d w ds)
  else (.notProcessed, [], ds)

/-! ## Helper lemmas -/

/-- The fully updated ticket passed to the final bulk update call of
`_save_zendek_comment` (comment attached, status and tags transitioned). -/
def updatedTicket (action : String) (ticket : Ticket) (ct : Contact) (c : String) : Ticket :=
  { ticket with
      commentBody := c
      commentPublic := false
      status := applyStatus ticket.status action ct.status
      tagList := applyTags action ticket.tagList }

/-- Whether an effect is the final analytics tracking call. -/
def isTrack : Effect → Bool
  | .track _ _ _ _ => true
  | _ => false

/-- Whether an effect is a local log line only (no external call). -/
def isLog : Effect → Bool
  | .logWarn _ => true
  | .logExc => true
  | _ => false

theorem tags_distinct : CALL_SCHEDULED ≠ CALL_CANCELED := by decide

theorem applyTags_canceled_spec (ts : List String) (h : ts.Nodup) :
    CALL_CANCELED ∈ applyTags CANCELED ts ∧ CALL_SCHEDULED ∉ applyTags CANCELED ts := by
  simp only [applyTags, if_pos rfl]
  set t1 := if CALL_SCHEDULED ∈ ts then ts.erase CALL_SCHEDULED else ts with ht1
  have hCS : CALL_SCHEDULED ∉ t1 := by
    rw [ht1]
    by_cases hm : CALL_SCHEDULED ∈ ts
    · rw [if_pos hm]; exact h.not_mem_erase
    · rw [if_neg hm]; exact hm
  by_cases hc : CALL_CANCELED ∈ t1
  · rw [if_pos hc]
    exact ⟨hc, hCS⟩
  · rw [if_neg hc]
    refine ⟨List.mem_append_right _ (by simp), ?_⟩
    intro hmem
    rcases List.mem_append.1 hmem with h1 | h1
    · exact hCS h1
    · exact tags_distinct (by simpa using h1)

theorem applyTags_not_canceled_spec (a : String) (ha : a ≠ CANCELED) (ts : List String)
    (h : ts.Nodup) :
    CALL_SCHEDULED ∈ applyTags a ts ∧ CALL_CANCELED ∉ applyTags a ts := by
  simp only [applyTags, if_neg ha]
  set t1 := if CALL_SCHEDULED ∈ ts then ts else ts ++ [CALL_SCHEDULED] with ht1
  have h1 : t1.Nodup := by
    rw [ht1]
    by_cases hm : CALL_SCHEDULED ∈ ts
    · rw [if_pos hm]; exact h
    · rw [if_neg hm]
      refine List.nodup_append.2 ⟨h, List.nodup_singleton _, ?_⟩
      intro x hx hx'
      simp only [List.mem_singleton] at hx'
      subst hx'
      exact hm hx
  have h2 : CALL_SCHEDULED ∈ t1 := by
    rw [ht1]
    by_cases hm : CALL_SCHEDULED ∈ ts
    · rw [if_pos hm]; exact hm
    · rw [if_neg hm]; exact List.mem_append_right _ (by simp)
  by_cases hc : CALL_CANCELED ∈ t1
  · rw [if_pos hc]
    exact ⟨(List.mem_erase_of_ne tags_distinct).2 h2, h1.not_mem_erase⟩
  · rw [if_neg hc]
    exact ⟨h2, hc⟩

theorem buildComment_canceled_closed (j : Job) (d : AcuityDetail) (ad : String)
    (hclosed : j.status = JOB_CLOSED) :
    ∃ rest, buildComment CANCELED j d ad = some ("Job closed\n" ++ rest) := by
  unfold buildComment
  dsimp only
  rw [if_neg (show ¬ CANCELED = SCHEDULED by decide),
    if_neg (show ¬ CANCELED = RESCHEDULED by decide), if_pos rfl, if_pos hclosed]
  dsimp only
  split
  · split
    · exact ⟨_, by simp only [String.append_assoc]; rfl⟩
    · exact ⟨_, by simp only [String.append_assoc]; rfl⟩
  · split
    · exact ⟨_, by simp only [String.append_assoc]; rfl⟩
    · exact ⟨_, by simp only [String.append_assoc]; rfl⟩

theorem zendek_update_shape (action : String) (j : Job) (tid : String) (ct : Contact)
    (ticket : Ticket) (d : AcuityDetail) (fd : String → String)
    (hact : action ∈ processedActions)
    (hcf : action = CANCELED →
      (lookupField ticket.customFields CANDIDATE_NOT_INTERESTED).isSome) :
    ∃ t : Ticket,
      Effect.ticketUpdate t ∈ zendekStep action (some j) (some tid) d (some ct) ticket fd ∧
      t.status = applyStatus ticket.status action ct.status ∧
      t.tagList = applyTags action ticket.tagList := by
  simp only [processedActions, List.mem_cons, List.mem_singleton,
    List.not_mem_nil, or_false] at hact
  rcases hact with rfl | rfl | rfl
  · obtain ⟨c, hc⟩ : ∃ c, buildComment SCHEDULED j d (fd d.datetimeStr) = some c := by
      simp [buildComment, SCHEDULED, RESCHEDULED, CANCELED]
    refine ⟨updatedTicket SCHEDULED ticket ct c, ?_, rfl, rfl⟩
    simp only [zendekStep, hc, if_neg (show ¬ SCHEDULED = CANCELED by decide)]
    exact List.mem_singleton.2 rfl
  · obtain ⟨c, hc⟩ : ∃ c, buildComment RESCHEDULED j d (fd d.datetimeStr) = some c := by
      simp [buildComment, SCHEDULED, RESCHEDULED, CANCELED]
    refine ⟨updatedTicket RESCHEDULED ticket ct c, ?_, rfl, rfl⟩
    simp only [zendekStep, hc, if_neg (show ¬ RESCHEDULED = CANCELED by decide)]
    exact List.mem_singleton.2 rfl
  · obtain ⟨v, hv⟩ := Option.isSome_iff_exists.1 (hcf rfl)
    obtain ⟨c, hc⟩ : ∃ c, buildComment CANCELED j d (fd d.datetimeStr) = some c := by
      simp [buildComment, SCHEDULED, RESCHEDULED, CANCELED]
    refine ⟨updatedTicket CANCELED ticket ct c, ?_, rfl, rfl⟩
    simp only [zendekStep, hc, if_pos rfl, hv]
    rw [if_pos trivial]
    split <;> exact List.mem_append_right _ (List.mem_singleton.2 rfl)

/-! ## Claims -/

/-- C1: for a webhook whose action, after stripping an `appointment.`
prefix, is not `scheduled`, `rescheduled` or `canceled`, `post` returns
the empty success response with an empty effect trace (no calendaring
fetch, no datastore write, no ticket, analytics or tracking call) and
leaves the datastore unchanged. -/
theorem unprocessed_action_no_op (cfg : Config) (apptId rawAction : String)
    (d : AcuityDetail) (w : World) (ds : Datastore)
    (h : stripAction rawAction ∉ processedActions) :
    post cfg apptId rawAction d w ds = (.notProcessed, [], ds) := by
  simp [post, h]

theorem unprocessed_action_no_op_witness :
    post ⟨"p", "q", "d", "p"⟩ "1" "appointment.changed"
        ⟨[], "", "", "", "", "", "", "", "", ""⟩
        ⟨false, none, false, false, none, ⟨"", [], [], "", true⟩, false, false, false,
          fun s => s⟩
        (fun _ => none) =
      (.notProcessed, [], fun _ => none) :=
  unprocessed_action_no_op _ _ _ _ _ _ (by decide)

/-- C3: after the ticket-annotation step completes on a duplicate-free
initial tag set, a canceled action leaves `CALL_CANCELED` present and
`CALL_SCHEDULED` absent, and a scheduled or rescheduled action leaves
`CALL_SCHEDULED` present and `CALL_CANCELED` absent, regardless of the
initial tags. -/
theorem ticket_tag_invariant (ticket : Ticket) (h : ticket.tagList.Nodup) :
    (∀ (j : Job) (tid : String) (ct : Contact) (d : AcuityDetail) (fd : String → String)
        (v : String), lookupField ticket.customFields CANDIDATE_NOT_INTERESTED = some v →
        ∃ t : Ticket,
          Effect.ticketUpdate t ∈
            zendekStep CANCELED (some j) (some tid) d (some ct) ticket fd ∧
          CALL_CANCELED ∈ t.tagList ∧ CALL_SCHEDULED ∉ t.tagList) ∧
    (∀ action, action = SCHEDULED ∨ action = RESCHEDULED →
      ∀ (j : Job) (tid : String) (ct : Contact) (d : AcuityDetail) (fd : String → String),
        ∃ t : Ticket,
          Effect.ticketUpdate t ∈
            zendekStep action (some j) (some tid) d (some ct) ticket fd ∧
          CALL_SCHEDULED ∈ t.tagList ∧ CALL_CANCELED ∉ t.tagList) := by
  constructor
  · intro j tid ct d fd v hv
    obtain ⟨t, hmem, _, htags⟩ := zendek_update_shape CANCELED j tid ct ticket d fd
      (by simp [processedActions]) (fun _ => by simp [hv])
    exact ⟨t, hmem, htags ▸ (applyTags_canceled_spec _ h).1,
      htags ▸ (applyTags_canceled_spec _ h).2⟩
  · rintro action (rfl | rfl) j tid ct d fd
    · obtain ⟨t, hmem, _, htags⟩ := zendek_update_shape SCHEDULED j tid ct ticket d fd
        (by simp [processedActions]) (fun hc => absurd hc (by decide))
      exact ⟨t, hmem, htags ▸ (applyTags_not_canceled_spec _ (by decide) _ h).1,
        htags ▸ (applyTags_not_canceled_spec _ (by decide) _ h).2⟩
    · obtain ⟨t, hmem, _, htags⟩ := zendek_update_shape RESCHEDULED j tid ct ticket d fd
        (by simp [processedActions]) (fun hc => absurd hc (by decide))
      exact ⟨t, hmem, htags ▸ (applyTags_not_canceled_spec _ (by decide) _ h).1,
        htags ▸ (applyTags_not_canceled_spec _ (by decide) _ h).2⟩

theorem ticket_tag_invariant_witness :
    ∃ t : Ticket,
      Effect.ticketUpdate t ∈
        zendekStep CANCELED (some ⟨"j", "open", "", "", "", "", "", false, "", ""⟩)
          (some "t") ⟨[], "", "", "", "", "", "", "", "", ""⟩ (some ⟨1, ""⟩)
          ⟨"open", [CALL_SCHEDULED], [(CANDIDATE_NOT_INTERESTED, "v")], "", true⟩
          (fun s => s) ∧
      CALL_CANCELED ∈ t.tagList ∧ CALL_SCHEDULED ∉ t.tagList :=
  (ticket_tag_invariant
    ⟨"open", [CALL_SCHEDULED], [(CANDIDATE_NOT_INTERESTED, "v")], "", true⟩
    (by decide)).1 _ _ _ _ _ "v" (by decide)

/-- C4: for a canceled action on a closed job, the ticket-annotation step
emits exactly the resolve call with reason `job_closed` (whatever the
stored candidate-not-interested custom field value is) followed by the
ticket update, and the comment text begins with the line `Job closed`. -/
theorem canceled_job_closed_resolve (j : Job) (tid : String) (ct : Contact)
    (ticket : Ticket) (d : AcuityDetail) (fd : String → String) (v : String)
    (hclosed : j.status = JOB_CLOSED)
    (hcf : lookupField ticket.customFields CANDIDATE_NOT_INTERESTED = some v) :
    ∃ (t : Ticket) (rest : String),
      zendekStep CANCELED (some j) (some tid) d (some ct) ticket fd =
        [Effect.ticketResolve j.preferredLanguage (some "job_closed"),
         Effect.ticketUpdate t] ∧
      t.commentBody = "Job closed\n" ++ rest := by
  obtain ⟨rest, hbc⟩ := buildComment_canceled_closed j d (fd d.datetimeStr) hclosed
  refine ⟨updatedTicket CANCELED ticket ct ("Job closed\n" ++ rest), rest, ?_, rfl⟩
  simp only [zendekStep, hbc, if_pos rfl, hcf, hclosed,
    if_pos (show JOB_CLOSED = JOB_CLOSED from rfl),
    if_pos (show "job_closed" ≠ "" by decide)]
  rfl

theorem canceled_job_closed_resolve_witness :
    ∃ (t : Ticket) (rest : String),
      zendekStep CANCELED (some ⟨"j", JOB_CLOSED, "", "", "", "", "", false, "", "de"⟩)
          (some "t") ⟨[], "", "", "", "", "", "", "", "", ""⟩ (some ⟨1, ""⟩)
          ⟨"open", [], [(CANDIDATE_NOT_INTERESTED, "not_interested")], "", true⟩
          (fun s => s) =
        [Effect.ticketResolve "de" (some "job_closed"), Effect.ticketUpdate t] ∧
      t.commentBody = "Job closed\n" ++ rest :=
  canceled_job_closed_resolve _ "t" _ _ _ _ "not_interested" rfl (by decide)

/-- C5: the ticket-annotation step sets the ticket status to `pending`
exactly when the current status is `open`, or the current status is
`solved` and the action is `scheduled` and the contact's pipeline status
is `not_interested`; in every other case the persisted ticket keeps its
previous status. -/
theorem ticket_status_rule (ticket : Ticket) (action : String) (j : Job) (tid : String)
    (ct : Contact) (d : AcuityDetail) (fd : String → String)
    (hact : action ∈ processedActions)
    (hcf : action = CANCELED →
      (lookupField ticket.customFields CANDIDATE_NOT_INTERESTED).isSome) :
    ∃ t : Ticket,
      Effect.ticketUpdate t ∈ zendekStep action (some j) (some tid) d (some ct) ticket fd ∧
      ((ticket.status = "open" ∨
          ticket.status = "solved" ∧ action = SCHEDULED ∧ ct.status = "not_interested") →
        t.status = "pending") ∧
      (¬ (ticket.status = "open" ∨
          ticket.status = "solved" ∧ action = SCHEDULED ∧ ct.status = "not_interested") →
        t.status = ticket.status) := by
  obtain ⟨t, hmem, hstat, _⟩ := zendek_update_shape action j tid ct ticket d fd hact hcf
  refine ⟨t, hmem, ?_, ?_⟩ <;> intro hc <;> rw [hstat] <;> simp [applyStatus, hc]

theorem ticket_status_rule_witness :
    ∃ t : Ticket,
      Effect.ticketUpdate t ∈
        zendekStep RESCHEDULED (some ⟨"j", "open", "", "", "", "", "", false, "", ""⟩)
          (some "t") ⟨[], "", "", "", "", "", "", "", "", ""⟩ (some ⟨1, ""⟩)
          ⟨"open", [], [], "", true⟩ (fun s => s) ∧
      (("open" = "open" ∨
          "open" = "solved" ∧ RESCHEDULED = SCHEDULED ∧ "" = "not_interested") →
        t.status = "pending") ∧
      (¬ ("open" = "open" ∨
          "open" = "solved" ∧ RESCHEDULED = SCHEDULED ∧ "" = "not_interested") →
        t.status = "open") :=
  ticket_status_rule ⟨"open", [], [], "", true⟩ RESCHEDULED _ "t" ⟨1, ""⟩ _ _
    (by decide) (fun hc => absurd hc (by decide))

theorem enrichTalent_email (tp : Talent) (e p : String) :
    ((enrichTalent tp e p).1).email = if tp.email = "" ∧ e ≠ "" then e else tp.email := by
  by_cases h1 : tp.email = "" ∧ e ≠ "" <;> by_cases h2 : p ≠ "" ∧ p ∉ tp.mobile <;>
    simp [enrichTalent, h1, h2]

theorem enrichTalent_mobile (tp : Talent) (e p : String) :
    ((enrichTalent tp e p).1).mobile =
      if p ≠ "" ∧ p ∉ tp.mobile then tp.mobile ++ [p] else tp.mobile := by
  by_cases h1 : tp.email = "" ∧ e ≠ "" <;> by_cases h2 : p ≠ "" ∧ p ∉ tp.mobile <;>
    simp [enrichTalent, h1, h2]

theorem enrichTalent_clean (tp : Talent) (e p : String)
    (h : (enrichTalent tp e p).2 = false) : (enrichTalent tp e p).1 = tp := by
  by_cases h1 : tp.email = "" ∧ e ≠ "" <;> by_cases h2 : p ≠ "" ∧ p ∉ tp.mobile <;>
    simp [enrichTalent, h1, h2] at h ⊢

theorem enrichTalent_idem (tp : Talent) (e p : String) :
    enrichTalent (enrichTalent tp e p).1 e p = ((enrichTalent tp e p).1, false) := by
  by_cases h1 : tp.email = "" ∧ e ≠ "" <;> by_cases h2 : p ≠ "" ∧ p ∉ tp.mobile
  · simp [enrichTalent, h1, h2, h1.2]
  · simp [enrichTalent, h1, h2, h1.2]
  · have h1e : ¬ (tp.email = "" ∧ e ≠ "") := h1
    simp [enrichTalent, h1, h2, h1e]
  · simp [enrichTalent, h1, h2]

theorem saveTalentPi_idem (tid : Option String) (d : AcuityDetail) (ds : Datastore) :
    (saveTalentPi tid d (saveTalentPi tid d ds).1).1 = (saveTalentPi tid d ds).1 := by
  cases tid with
  | none => simp [saveTalentPi]
  | some t =>
    by_cases hdd : d.email = "" ∧ d.phone = ""
    · simp [saveTalentPi, hdd]
    · cases hds : ds t with
      | none => simp [saveTalentPi, hdd, hds]
      | some tp =>
        by_cases hr : (enrichTalent tp d.email d.phone).2
        · have hlk : putTalent ds t (enrichTalent tp d.email d.phone).1 t =
              some (enrichTalent tp d.email d.phone).1 := by simp [putTalent]
          simp [saveTalentPi, hdd, hds, hr, hlk, enrichTalent_idem]
        · simp [saveTalentPi, hdd, hds, hr]

/-- C2: the candidate-enrichment step only enriches: an existing email is
never overwritten and an absent one is set to the fetched email; the
fetched phone never produces a duplicate entry (present phones leave the
mobile list untouched, new non-empty phones are appended once, and a
duplicate-free mobile list stays duplicate-free); and re-running the step
on its own output changes the datastore no further. -/
theorem talent_enrichment_invariant (tid : Option String) (d : AcuityDetail)
    (ds : Datastore) :
    (saveTalentPi tid d (saveTalentPi tid d ds).1).1 = (saveTalentPi tid d ds).1 ∧
    (∀ t tp, tid = some t → ds t = some tp →
      ∃ tp', (saveTalentPi tid d ds).1 t = some tp' ∧
        (tp.email ≠ "" → tp'.email = tp.email) ∧
        (tp.email = "" → d.email ≠ "" → tp'.email = d.email) ∧
        (d.phone ∈ tp.mobile → tp'.mobile = tp.mobile) ∧
        (d.phone ≠ "" → d.phone ∉ tp.mobile → tp'.mobile = tp.mobile ++ [d.phone]) ∧
        (tp.mobile.Nodup → tp'.mobile.Nodup)) := by
  refine ⟨saveTalentPi_idem tid d ds, ?_⟩
  rintro t tp rfl h
  by_cases hdd : d.email = "" ∧ d.phone = ""
  · refine ⟨tp, by simp [saveTalentPi, hdd, h], fun _ => rfl, ?_, fun _ => rfl, ?_, fun hn => hn⟩
    · intro _ hne
      exact absurd hdd.1 hne
    · intro hp
      exact absurd hdd.2 hp
  · refine ⟨(enrichTalent tp d.email d.phone).1, ?_, ?_, ?_, ?_, ?_, ?_⟩
    · by_cases hr : (enrichTalent tp d.email d.phone).2
      · simp [saveTalentPi, hdd, h, hr, putTalent]
      · simp [saveTalentPi, hdd, h, hr, enrichTalent_clean tp d.email d.phone (by simpa using hr)]
    · intro he
      rw [enrichTalent_email, if_neg (fun hc => he hc.1)]
    · intro he hde
      rw [enrichTalent_email, if_pos ⟨he, hde⟩]
    · intro hp
      rw [enrichTalent_mobile, if_neg (fun hc => hc.2 hp)]
    · intro hp hnp
      rw [enrichTalent_mobile, if_pos ⟨hp, hnp⟩]
    · intro hn
      rw [enrichTalent_mobile]
      split
      · exact List.nodup_append.2 ⟨hn, List.nodup_singleton _, by
          intro x hx hx'
          simp only [List.mem_singleton] at hx'
          subst hx'
          exact ‹d.phone ≠ "" ∧ d.phone ∉ tp.mobile›.2 hx⟩
      · exact hn

theorem talent_enrichment_invariant_witness :
    ∃ tp', (saveTalentPi (some "t")
        ⟨[], "a@b.com", "555", "", "", "", "", "", "", ""⟩
        (fun i => if i = "t" then some ⟨"old@x.com", ["555"], "", "", ""⟩ else none)).1 "t"
        = some tp' ∧
      ("old@x.com" ≠ "" → tp'.email = "old@x.com") ∧
      ("old@x.com" = "" → "a@b.com" ≠ "" → tp'.email = "a@b.com") ∧
      ("555" ∈ ["555"] → tp'.mobile = ["555"]) ∧
      ("555" ≠ "" → "555" ∉ (["555"] : List String) → tp'.mobile = ["555"] ++ ["555"]) ∧
      ((["555"] : List String).Nodup → tp'.mobile.Nodup) :=
  (talent_enrichment_invariant (some "t")
      ⟨[], "a@b.com", "555", "", "", "", "", "", "", ""⟩
      (fun i => if i = "t" then some ⟨"old@x.com", ["555"], "", "", ""⟩ else none)).2
    "t" ⟨"old@x.com", ["555"], "", "", ""⟩ rfl (by simp)

theorem withFx_exit (fx : List Effect) (r : ExitPath × List Effect × Datastore) :
    (withFx fx r).1 = r.1 := by
  rcases r with ⟨e, fx2, ds⟩
  rfl

theorem withFx_trace (fx : List Effect) (r : ExitPath × List Effect × Datastore) :
    (withFx fx r).2.1 = fx ++ r.2.1 := by
  rcases r with ⟨e, fx2, ds⟩
  rfl

theorem withFx_compose (a b : List Effect) (r : ExitPath × List Effect × Datastore) :
    withFx a (withFx b r) = withFx (a ++ b) r := by
  rcases r with ⟨e, fx2, ds⟩
  simp [withFx]

theorem saveTalentPi_no_track (tid : Option String) (d : AcuityDetail) (ds : Datastore) :
    ((saveTalentPi tid d ds).2).filter isTrack = [] := by
  cases tid with
  | none => simp [saveTalentPi, isTrack]
  | some t =>
    by_cases hdd : d.email = "" ∧ d.phone = ""
    · simp [saveTalentPi, hdd]
    · cases hds : ds t with
      | none => simp [saveTalentPi, hdd, hds, isTrack]
      | some tp =>
        by_cases hr : (enrichTalent tp d.email d.phone).2 <;>
          simp [saveTalentPi, hdd, hds, hr, isTrack]

theorem scheduledStep_no_track (cfg : Config) (jobOpt : Option Job) (tid : Option String)
    (d : AcuityDetail) (w : World) (ds : Datastore) :
    ((scheduledStep cfg jobOpt tid d w ds).2.1).filter isTrack = [] := by
  unfold scheduledStep
  cases tid with
  | none => exact saveTalentPi_no_track none d ds
  | some t =>
    cases hlk : (saveTalentPi (some t) d ds).1 t with
    | none => simpa [hlk] using saveTalentPi_no_track (some t) d ds
    | some tp =>
      cases jobOpt with
      | none => simpa [hlk] using saveTalentPi_no_track (some t) d ds
      | some j =>
        simp only [hlk, List.filter_append]
        rw [saveTalentPi_no_track]
        split <;> split <;> simp [isTrack]

theorem zendekStep_no_track (action : String) (jobOpt : Option Job) (tid : Option String)
    (d : AcuityDetail) (ct : Option Contact) (ticket : Ticket) (fd : String → String) :
    (zendekStep action jobOpt tid d ct ticket fd).filter isTrack = [] := by
  unfold zendekStep
  cases tid with
  | none => simp [isTrack]
  | some t =>
    cases jobOpt with
    | none => simp [isTrack]
    | some j =>
      cases ct with
      | none => simp [isTrack]
      | some c =>
        cases hbc : buildComment action j d (fd d.datetimeStr) with
        | none => simp [hbc]
        | some cm =>
          simp only [hbc]
          by_cases hc : action = CANCELED
          · rw [if_pos hc]
            cases hlf : lookupField ticket.customFields CANDIDATE_NOT_INTERESTED with
            | none => simp
            | some v =>
              simp only [List.filter_append]
              split_ifs <;> simp [isTrack]
          · rw [if_neg hc]
            simp [isTrack]

theorem postWithJob_track (cfg : Config) (apptId action : String) (jobOpt : Option Job)
    (tid : Option String) (d : AcuityDetail) (w : World) (ds : Datastore)
    (hdone : (postWithJob cfg apptId action jobOpt tid d w ds).1 = .completed) :
    ((postWithJob cfg apptId action jobOpt tid d w ds).2.1).filter isTrack =
      [Effect.track jobOpt tid action (w.formatDate d.datetimeStr)] := by
  unfold postWithJob at hdone ⊢
  by_cases hs : action = SCHEDULED
  · rw [if_pos hs] at hdone ⊢
    dsimp only at hdone ⊢
    cases hr : (scheduledStep cfg jobOpt tid d w ds).2.2 with
    | true =>
      simp only [hr, cond_true] at hdone
      simp at hdone
    | false =>
      simp only [hr, cond_false] at hdone ⊢
      try dsimp only at hdone ⊢
      simp only [List.filter_append, scheduledStep_no_track, zendekStep_no_track]
      split <;> simp [isTrack]
  · rw [if_neg hs] at hdone ⊢
    try dsimp only at hdone ⊢
    simp only [cond_false] at hdone ⊢
    try dsimp only at hdone ⊢
    simp only [List.filter_append, zendekStep_no_track]
    split <;> simp [isTrack]

theorem postAfterExtract_track (cfg : Config) (apptId action : String)
    (tid : Option String) (d : AcuityDetail) (w : World) (ds : Datastore)
    (hdone : (postAfterExtract cfg apptId action tid d w ds).1 = .completed) :
    ((postAfterExtract cfg apptId action tid d w ds).2.1).filter isTrack =
      [Effect.track w.jobHere tid action (w.formatDate d.datetimeStr)] := by
  unfold postAfterExtract at hdone ⊢
  cases hj : w.jobHere with
  | some j =>
    rw [hj] at hdone
    exact postWithJob_track cfg apptId action (some j) tid d w ds hdone
  | none =>
    rw [hj] at hdone
    dsimp only at hdone ⊢
    by_cases hp : cfg.currentNs ≠ cfg.prodNs
    · rw [if_pos hp] at hdone
      exact absurd hdone (by simp)
    · rw [if_neg hp] at hdone ⊢
      cases hq : (w.jobInQa || w.jobInDev) with
      | true =>
        rw [if_pos hq] at hdone
        simp at hdone
      | false =>
        simp only [hq, Bool.false_eq_true, if_false] at hdone ⊢
        rw [withFx_trace]
        rw [withFx_exit] at hdone
        simp only [List.filter_append]
        rw [postWithJob_track cfg apptId action none tid d w ds hdone]
        simp [isTrack]

theorem saveTalentPi_missing (tid : Option String) (d : AcuityDetail) (ds : Datastore)
    (h : tid.bind ds = none) :
    (saveTalentPi tid d ds).1 = ds ∧
    ∀ e ∈ (saveTalentPi tid d ds).2, ∃ m, e = Effect.logWarn m := by
  cases tid with
  | none => simp [saveTalentPi]
  | some t =>
    simp only [Option.bind] at h
    by_cases hdd : d.email = "" ∧ d.phone = "" <;> simp [saveTalentPi, hdd, h]

theorem scheduledStep_missing (cfg : Config) (jobOpt : Option Job) (tid : Option String)
    (d : AcuityDetail) (w : World) (ds : Datastore) (h : tid.bind ds = none) :
    scheduledStep cfg jobOpt tid d w ds = (ds, (saveTalentPi tid d ds).2, true) := by
  obtain ⟨hds, -⟩ := saveTalentPi_missing tid d ds h
  unfold scheduledStep
  cases tid with
  | none =>
    dsimp only
    rw [hds]
  | some t =>
    have hlk : (saveTalentPi (some t) d ds).1 t = none := by
      rw [hds]
      simpa [Option.bind] using h
    dsimp only
    rw [hlk]
    dsimp only
    rw [hds]

theorem extractSingle_isSome_iff (n : String) (vals : List FormField) :
    (extractSingle n vals).isSome ↔ (vals.filter (fun f => f.name = n)).length = 1 := by
  unfold extractSingle
  cases hl : vals.filter (fun f => f.name = n) with
  | nil => simp [hl]
  | cons a as =>
    cases as with
    | nil => simp [hl]
    | cons b bs => simp [hl]

theorem personality_not_in_save (a b : String) (tid : Option String) (d : AcuityDetail)
    (ds : Datastore) : Effect.personalityEnable a b ∉ (saveTalentPi tid d ds).2 := by
  cases tid with
  | none => simp [saveTalentPi]
  | some t =>
    by_cases hdd : d.email = "" ∧ d.phone = ""
    · simp [saveTalentPi, hdd]
    · cases hds : ds t with
      | none => simp [saveTalentPi, hdd, hds]
      | some tp =>
        by_cases hr : (enrichTalent tp d.email d.phone).2 <;>
          simp [saveTalentPi, hdd, hds, hr]

/-- C6: when the job lookup by JobId fails: outside production the handler
immediately returns the empty success response with only the fetch
performed; in production a JobId present in the QA or dev namespace
likewise immediately returns success; otherwise a Sentry message
containing the action and the raw forms text is reported and execution
continues with `job = None`. -/
theorem unknown_job_policy (cfg : Config) (apptId raw : String) (d : AcuityDetail)
    (w : World) (ds : Datastore) (vals : List FormField) (jid : String)
    (hact : stripAction raw ∈ processedActions)
    (hf : w.fetchFails = false)
    (hvals : candidateForm d.forms = some vals)
    (hjid : extractSingle "JobId" vals = some jid)
    (hjob : w.jobHere = none) :
    (cfg.currentNs ≠ cfg.prodNs →
      post cfg apptId raw d w ds =
        (.jobNotFoundNonProd, [Effect.acuityFetch apptId], ds)) ∧
    (cfg.currentNs = cfg.prodNs → (w.jobInQa || w.jobInDev) = true →
      post cfg apptId raw d w ds = (.jobInQaDev, [Effect.acuityFetch apptId], ds)) ∧
    (cfg.currentNs = cfg.prodNs → w.jobInQa = false → w.jobInDev = false →
      post cfg apptId raw d w ds =
        withFx [Effect.acuityFetch apptId,
            Effect.sentryMsg (sentryJobMsg (stripAction raw) d.formsText)]
          (postWithJob cfg apptId (stripAction raw) none
            (extractSingle "CandidateId" vals) d w ds) ∧
      ∃ pre mid, sentryJobMsg (stripAction raw) d.formsText =
        pre ++ stripAction raw ++ mid ++ d.formsText) := by
  have hpost : post cfg apptId raw d w ds =
      withFx [Effect.acuityFetch apptId]
        (postAfterExtract cfg apptId (stripAction raw)
          (extractSingle "CandidateId" vals) d w ds) := by
    simp [post, hact, hf, hvals, hjid]
  refine ⟨?_, ?_, ?_⟩
  · intro hne
    rw [hpost]
    simp [postAfterExtract, hjob, hne, withFx]
  · intro he hq
    rw [hpost]
    simp [postAfterExtract, hjob, he, hq, withFx]
  · intro he h1 h2
    constructor
    · rw [hpost]
      rw [show postAfterExtract cfg apptId (stripAction raw)
            (extractSingle "CandidateId" vals) d w ds =
          withFx [Effect.sentryMsg (sentryJobMsg (stripAction raw) d.formsText)]
            (postWithJob cfg apptId (stripAction raw) none
              (extractSingle "CandidateId" vals) d w ds) by
        simp [postAfterExtract, hjob, he, h1, h2]]
      rw [withFx_compose]
      rfl
    · exact ⟨"Unknown job_id in Acuity API response" ++ "\n" ++ "Action: ",
        "\n" ++ "Forms text:\n" ++ "\n", by simp [sentryJobMsg, String.append_assoc]⟩

theorem unknown_job_policy_witness :
    post ⟨"prod", "qa", "dev", "test"⟩ "1" "appointment.canceled"
        ⟨[⟨"CandidateID", [⟨"JobId", "j"⟩]⟩], "", "", "", "", "", "", "", "", ""⟩
        ⟨false, none, false, false, none, ⟨"", [], [], "", true⟩, false, false, false,
          fun s => s⟩
        (fun _ => none) =
      (.jobNotFoundNonProd, [Effect.acuityFetch "1"], fun _ => none) :=
  (unknown_job_policy ⟨"prod", "qa", "dev", "test"⟩ "1" "appointment.canceled"
      ⟨[⟨"CandidateID", [⟨"JobId", "j"⟩]⟩], "", "", "", "", "", "", "", "", ""⟩
      ⟨false, none, false, false, none, ⟨"", [], [], "", true⟩, false, false, false,
        fun s => s⟩
      (fun _ => none) [⟨"JobId", "j"⟩] "j"
      (by decide) rfl rfl rfl rfl).1 (by decide)

/-- C7: extracting `JobId` requires exactly one matching form value and
the request raises to the global handler otherwise, while extracting
`CandidateId` yields the single value when exactly one exists and any
anomaly (zero or several values) yields an unknown talent id (`None`)
with which the handler proceeds. -/
theorem form_extraction_rules (vals : List FormField) :
    ((extractSingle "JobId" vals).isSome ↔
      (vals.filter (fun f => f.name = "JobId")).length = 1) ∧
    (∀ f : FormField, vals.filter (fun f2 => f2.name = "CandidateId") = [f] →
      extractSingle "CandidateId" vals = some f.value) ∧
    ((vals.filter (fun f => f.name = "CandidateId")).length ≠ 1 →
      extractSingle "CandidateId" vals = none) ∧
    (∀ (cfg : Config) (apptId raw : String) (d : AcuityDetail) (w : World)
      (ds : Datastore),
      stripAction raw ∈ processedActions → w.fetchFails = false →
      candidateForm d.forms = some vals → extractSingle "JobId" vals = none →
      post cfg apptId raw d w ds = (.raised, [Effect.acuityFetch apptId], ds)) ∧
    (∀ (cfg : Config) (apptId raw : String) (d : AcuityDetail) (w : World)
      (ds : Datastore) (jid : String),
      stripAction raw ∈ processedActions → w.fetchFails = false →
      candidateForm d.forms = some vals → extractSingle "JobId" vals = some jid →
      post cfg apptId raw d w ds =
        withFx [Effect.acuityFetch apptId]
          (postAfterExtract cfg apptId (stripAction raw)
            (extractSingle "CandidateId" vals) d w ds)) := by
  refine ⟨extractSingle_isSome_iff "JobId" vals, ?_, ?_, ?_, ?_⟩
  · intro f hf
    unfold extractSingle
    rw [hf]
    rfl
  · intro hlen
    cases hx : extractSingle "CandidateId" vals with
    | none => rfl
    | some v =>
      exact absurd ((extractSingle_isSome_iff "CandidateId" vals).1 (by rw [hx]; rfl)) hlen
  · intro cfg apptId raw d w ds hact hf hvals hjn
    simp [post, hact, hf, hvals, hjn]
  · intro cfg apptId raw d w ds jid hact hf hvals hjs
    simp [post, hact, hf, hvals, hjs]

theorem form_extraction_rules_witness :
    extractSingle "CandidateId" [(⟨"JobId", "1"⟩ : FormField)] = none :=
  (form_extraction_rules [⟨"JobId", "1"⟩]).2.2.1 (by decide)

/-- C8: for a scheduled action the personality-check enablement is
attempted exactly when the job has the check enabled and either no
trigger is configured or the trigger is `call_scheduled`; a failure of
the enablement is logged and swallowed: it changes neither the raised
flag, nor the datastore, nor any non-log effect of the step. -/
theorem personality_check_policy (cfg : Config) (j : Job) (tid : Option String)
    (d : AcuityDetail) (w : World) (ds : Datastore) :
    (∀ b₁ b₂ : Bool,
      (scheduledStep cfg (some j) tid d { w with personalityFails := b₁ } ds).1 =
        (scheduledStep cfg (some j) tid d { w with personalityFails := b₂ } ds).1 ∧
      (scheduledStep cfg (some j) tid d { w with personalityFails := b₁ } ds).2.2 =
        (scheduledStep cfg (some j) tid d { w with personalityFails := b₂ } ds).2.2 ∧
      ((scheduledStep cfg (some j) tid d { w with personalityFails := b₁ } ds).2.1).filter
          (fun e => ! isLog e) =
        ((scheduledStep cfg (some j) tid d { w with personalityFails := b₂ } ds).2.1).filter
          (fun e => ! isLog e)) ∧
    (∀ (t : String) (tp : Talent), tid = some t →
      (saveTalentPi tid d ds).1 t = some tp →
      (Effect.personalityEnable j.id t ∈ (scheduledStep cfg (some j) tid d w ds).2.1 ↔
        (j.personalityCheck = true ∧
          (j.personalityCheckTrigger = "" ∨
            j.personalityCheckTrigger = "call_scheduled")))) := by
  constructor
  · intro b₁ b₂
    unfold scheduledStep
    dsimp only
    cases tid with
    | none => exact ⟨rfl, rfl, rfl⟩
    | some t =>
      dsimp only
      cases hlk : (saveTalentPi (some t) d ds).1 t with
      | none => exact ⟨rfl, rfl, rfl⟩
      | some tp =>
        refine ⟨rfl, rfl, ?_⟩
        dsimp only
        by_cases hc : j.personalityCheck = true ∧
            (j.personalityCheckTrigger = "" ∨ j.personalityCheckTrigger = "call_scheduled") <;>
          cases hadf : w.applicationDeleteFails <;>
            cases b₁ <;> cases b₂ <;>
              simp [hc, hadf, isLog, List.filter_append]
  · rintro t tp rfl hlk
    unfold scheduledStep
    dsimp only
    rw [hlk]
    dsimp only
    have hnotin := personality_not_in_save j.id t (some t) d ds
    by_cases hc : j.personalityCheck = true ∧
        (j.personalityCheckTrigger = "" ∨ j.personalityCheckTrigger = "call_scheduled") <;>
      cases hadf : w.applicationDeleteFails <;>
        cases hpf : w.personalityFails <;>
          simp [hc, hadf, hpf, hnotin]

theorem personality_check_policy_witness :
    (Effect.personalityEnable "j" "t" ∈
        (scheduledStep ⟨"p", "q", "d", "p"⟩
          (some ⟨"j", "open", "en", "T", "o", "c", "a", true, "", "de"⟩) (some "t")
          ⟨[], "", "", "", "", "", "", "", "", ""⟩
          ⟨false, none, false, false, none, ⟨"", [], [], "", true⟩, false, false, false,
            fun s => s⟩
          (fun i => if i = "t" then some ⟨"e", [], "", "", ""⟩ else none)).2.1) ↔
      ((⟨"j", "open", "en", "T", "o", "c", "a", true, "", "de"⟩ : Job).personalityCheck = true ∧
        ((⟨"j", "open", "en", "T", "o", "c", "a", true, "", "de"⟩ : Job).personalityCheckTrigger
            = "" ∨
          (⟨"j", "open", "en", "T", "o", "c", "a", true, "", "de"⟩ :
              Job).personalityCheckTrigger = "call_scheduled")) :=
  (personality_check_policy ⟨"p", "q", "d", "p"⟩
      ⟨"j", "open", "en", "T", "o", "c", "a", true, "", "de"⟩ (some "t")
      ⟨[], "", "", "", "", "", "", "", "", ""⟩
      ⟨false, none, false, false, none, ⟨"", [], [], "", true⟩, false, false, false,
        fun s => s⟩
      (fun i => if i = "t" then some ⟨"e", [], "", "", ""⟩ else none)).2
    "t" ⟨"e", [], "", "", ""⟩ rfl (by decide)

/-- C9: whenever a run of the handler completes its pipeline, the effect
trace contains exactly one analytics tracking call, and it carries the
resolved job, the extracted candidate id, the processed action and the
formatted appointment date, whatever branches the earlier steps took. -/
theorem tracking_emitted_once (cfg : Config) (apptId raw : String) (d : AcuityDetail)
    (w : World) (ds : Datastore) (vals : List FormField)
    (hvals : candidateForm d.forms = some vals)
    (hdone : (post cfg apptId raw d w ds).1 = .completed) :
    ((post cfg apptId raw d w ds).2.1).filter isTrack =
      [Effect.track w.jobHere (extractSingle "CandidateId" vals) (stripAction raw)
        (w.formatDate d.datetimeStr)] := by
  unfold post at hdone ⊢
  dsimp only at hdone ⊢
  by_cases hact : stripAction raw ∈ processedActions
  · rw [if_pos hact] at hdone ⊢
    cases hf : w.fetchFails with
    | true =>
      rw [if_pos hf] at hdone
      simp at hdone
    | false =>
      rw [if_neg (show ¬ w.fetchFails = true by rw [hf]; simp)] at hdone
      rw [if_neg (show ¬ false = true by simp)]
      rw [hvals] at hdone ⊢
      dsimp only at hdone ⊢
      cases hjid : extractSingle "JobId" vals with
      | none =>
        rw [hjid] at hdone
        simp at hdone
      | some jid =>
        rw [hjid] at hdone
        dsimp only at hdone ⊢
        rw [withFx_exit] at hdone
        rw [withFx_trace, List.filter_append]
        rw [postAfterExtract_track cfg apptId (stripAction raw)
          (extractSingle "CandidateId" vals) d w ds hdone]
        simp [isTrack]
  · rw [if_neg hact] at hdone
    simp at hdone

theorem tracking_emitted_once_witness :
    ((post ⟨"prod", "qa", "dev", "prod"⟩ "1" "appointment.canceled"
        ⟨[⟨"CandidateID", [⟨"CandidateId", "t"⟩, ⟨"JobId", "j"⟩]⟩], "", "", "D", "", "F",
          "L", "TZ", "Cal", "30"⟩
        ⟨false, some ⟨"j", "open", "en", "T", "o", "c", "a", false, "", "de"⟩, false,
          false, some ⟨5, ""⟩,
          ⟨"open", [], [(CANDIDATE_NOT_INTERESTED, "w")], "", true⟩, false, false, false,
          fun s => s⟩
        (fun _ => none)).2.1).filter isTrack =
      [Effect.track (some ⟨"j", "open", "en", "T", "o", "c", "a", false, "", "de"⟩)
        (some "t") "canceled" "D"] :=
  tracking_emitted_once ⟨"prod", "qa", "dev", "prod"⟩ "1" "appointment.canceled"
    ⟨[⟨"CandidateID", [⟨"CandidateId", "t"⟩, ⟨"JobId", "j"⟩]⟩], "", "", "D", "", "F", "L",
      "TZ", "Cal", "30"⟩
    ⟨false, some ⟨"j", "open", "en", "T", "o", "c", "a", false, "", "de"⟩, false, false,
      some ⟨5, ""⟩, ⟨"open", [], [(CANDIDATE_NOT_INTERESTED, "w")], "", true⟩, false,
      false, false, fun s => s⟩
    (fun _ => none) [⟨"CandidateId", "t"⟩, ⟨"JobId", "j"⟩] rfl (by decide)

/-- C10: for a scheduled action whose candidate record is absent from the
datastore (including an unknown talent id), the handler raises while
computing the effective language, so the portal registration, analytics
event, contact update, ticket annotation and final tracking call are all
skipped: the trace holds nothing but the fetch and warning logs. -/
theorem scheduled_missing_candidate_raises (cfg : Config) (apptId raw : String)
    (d : AcuityDetail) (w : World) (ds : Datastore) (vals : List FormField) (j : Job)
    (hact : stripAction raw = SCHEDULED)
    (hf : w.fetchFails = false)
    (hvals : candidateForm d.forms = some vals)
    (hjid : (extractSingle "JobId" vals).isSome)
    (hjob : w.jobHere = some j)
    (hmiss : (extractSingle "CandidateId" vals).bind ds = none) :
    (post cfg apptId raw d w ds).1 = .raised ∧
    ∀ e ∈ (post cfg apptId raw d w ds).2.1,
      e = Effect.acuityFetch apptId ∨ ∃ m, e = Effect.logWarn m := by
  obtain ⟨-, hlog⟩ := saveTalentPi_missing (extractSingle "CandidateId" vals) d ds hmiss
  obtain ⟨jid, hjv⟩ := Option.isSome_iff_exists.1 hjid
  have hpost : post cfg apptId raw d w ds =
      (.raised, Effect.acuityFetch apptId ::
        (saveTalentPi (extractSingle "CandidateId" vals) d ds).2, ds) := by
    unfold post
    dsimp only
    rw [hact]
    rw [if_pos (by simp [processedActions])]
    rw [if_neg (show ¬ w.fetchFails = true by rw [hf]; simp)]
    rw [hvals]
    dsimp only
    rw [hjv]
    dsimp only
    unfold postAfterExtract
    rw [hjob]
    dsimp only
    unfold postWithJob
    rw [if_pos rfl]
    dsimp only
    rw [scheduledStep_missing cfg (some j) (extractSingle "CandidateId" vals) d w ds hmiss]
    simp only [cond_true, withFx]
    simp
  rw [hpost]
  refine ⟨rfl, ?_⟩
  intro e he
  rcases List.mem_cons.1 he with h | h
  · exact Or.inl h
  · exact Or.inr (hlog e h)

theorem scheduled_missing_candidate_raises_witness :
    (post ⟨"prod", "qa", "dev", "prod"⟩ "1" "appointment.scheduled"
        ⟨[⟨"CandidateID", [⟨"CandidateId", "t"⟩, ⟨"JobId", "j"⟩]⟩], "e@x.com", "5", "D",
          "", "F", "L", "TZ", "Cal", "30"⟩
        ⟨false, some ⟨"j", "open", "en", "T", "o", "c", "a", false, "", "de"⟩, false,
          false, none, ⟨"open", [], [], "", true⟩, false, false, false, fun s => s⟩
        (fun _ => none)).1 = .raised :=
  (scheduled_missing_candidate_raises ⟨"prod", "qa", "dev", "prod"⟩ "1"
      "appointment.scheduled"
      ⟨[⟨"CandidateID", [⟨"CandidateId", "t"⟩, ⟨"JobId", "j"⟩]⟩], "e@x.com", "5", "D", "",
        "F", "L", "TZ", "Cal", "30"⟩
      ⟨false, some ⟨"j", "open", "en", "T", "o", "c", "a", false, "", "de"⟩, false, false,
        none, ⟨"open", [], [], "", true⟩, false, false, false, fun s => s⟩
      (fun _ => none) [⟨"CandidateId", "t"⟩, ⟨"JobId", "j"⟩]
      ⟨"j", "open", "en", "T", "o", "c", "a", false, "", "de"⟩
      (by decide) rfl rfl (by decide) rfl (by decide)).1

end Acuity
